import Mathlib

/-
Verification of the heart-hands gesture pipeline.

Shallow embedding of the core of the repository:
  - `collect_data.py`: `normalize_landmarks`, `extract_features`, and the
    auto-capture state machine inlined in `main` (globals
    `two_hands_start_time`, `pending_sample`, `captured_features`).
  - `detect_realtime.py`: `normalize_landmarks`, `extract_features`,
    `SMOOTHING_WINDOW`, `HEART_THRESHOLD`, and the smoothed decision layer
    inlined in `main` (the `prediction_buffer` deque and the
    `is_heart = avg_probability >= HEART_THRESHOLD` decision).

Landmark coordinates are embedded as real numbers (the Python code computes
with float64; exact real arithmetic is the idealization the spec's
"up to floating-point tolerance" wording refers to).  Classifier
probabilities and wall-clock times are embedded as rationals so that the
decision layer and the state machine are fully executable.  The external
hand detector and the external classifier are opaque per the spec; the
classifier is a parameter `predict` of the decision layer.
-/

/-- A single 2D hand landmark: the `.x`/`.y` fields of a mediapipe
`NormalizedLandmark` as read by `normalize_landmarks`. -/
structure Landmark where
  x : ℝ
  y : ℝ

/-- Sort key from `hand_data.sort(key=lambda x: (0 if x[0] == "Left" else 1))`:
`"Left"` maps to 0, anything else to 1. -/
def handKey (s : String) : Nat := if s = "Left" then 0 else 1

/-- One step of a stable insertion sort by `handKey` on the label component:
the new element is placed after every already-placed element whose key is
less than or equal to its own. -/
def insertByKey {β : Type} (a : String × β) : List (String × β) → List (String × β)
  | [] => [a]
  | b :: rest =>
      if handKey a.1 < handKey b.1 then a :: b :: rest else b :: insertByKey a rest

/-- Model of Python's stable `list.sort(key=lambda x: (0 if x[0] == "Left" else 1))`:
elements are inserted left to right, each after all earlier elements with a
key less than or equal to its own, so equal keys keep their original order. -/
def sortByHandedness {β : Type} (l : List (String × β)) : List (String × β) :=
  l.foldl (fun acc a => insertByKey a acc) []

namespace CollectData

/-- `np.linalg.norm(middle_mcp - wrist)` in `collect_data.normalize_landmarks`:
euclidean distance from the wrist (landmark 0) to the middle-finger MCP
(landmark 9). -/
noncomputable def distOf (hand_landmarks : List Landmark) : ℝ :=
  let wrist := hand_landmarks.getD 0 ⟨0, 0⟩
  let middle_mcp := hand_landmarks.getD 9 ⟨0, 0⟩
  Real.sqrt ((middle_mcp.x - wrist.x) ^ 2 + (middle_mcp.y - wrist.y) ^ 2)

/-- The scale factor actually divided by in `collect_data.normalize_landmarks`:
the wrist-to-MCP distance, clamped up to `1e-6` when it falls below `1e-6`. -/
noncomputable def scaleOf (hand_landmarks : List Landmark) : ℝ :=
  if distOf hand_landmarks < 1e-6 then 1e-6 else distOf hand_landmarks

/-- `collect_data.normalize_landmarks`: translate every landmark so the wrist
is at the origin, divide by the clamped wrist-to-MCP distance, and flatten
to `(x0, y0, x1, y1, ...)` like `numpy.ndarray.flatten` on an (n, 2) array. -/
noncomputable def normalize_landmarks (hand_landmarks : List Landmark) : List ℝ :=
  let wrist := hand_landmarks.getD 0 ⟨0, 0⟩
  (hand_landmarks.map (fun lm =>
    [(lm.x - wrist.x) / scaleOf hand_landmarks,
     (lm.y - wrist.y) / scaleOf hand_landmarks])).flatten

/-- `collect_data.extract_features`: `None` for fewer than two hands;
otherwise normalize every detected hand, stable-sort the
`(handedness, normalized)` pairs so `"Left"` precedes `"Right"`, and
concatenate the normalized vectors of the sorted hands. -/
noncomputable def extract_features (hand_landmarks_list : List (List Landmark))
    (handedness_list : List String) : Option (List ℝ) :=
  if hand_landmarks_list.length < 2 then none
  else
    let hand_data := (hand_landmarks_list.zip handedness_list).map
      (fun h => (h.2, normalize_landmarks h.1))
    let sorted := sortByHandedness hand_data
    some (sorted.map (fun h => h.2)).flatten

/-- The auto-capture globals of `collect_data.main`:
`two_hands_start_time` (clock value when two hands first appeared, `none`
when the timer is not running), `pending_sample`, and `captured_features`
(the frozen snapshot awaiting a label). -/
structure CaptureState (α : Type) where
  two_hands_start_time : Option ℚ
  pending_sample : Bool
  captured_features : Option α
deriving DecidableEq

/-- The state at the top of `collect_data.main`: timer not started, no
pending sample, no snapshot. -/
def initState {α : Type} : CaptureState α := ⟨none, false, none⟩

/-- One frame of the auto-capture logic in `collect_data.main`
(the `if features is not None: ... else: ...` block): with features present
and no pending sample, start or continue the hold timer and capture a
snapshot once 3.0 seconds have elapsed; with features absent and no pending
sample, reset the timer; with a pending sample, change nothing. -/
def autoStep {α : Type} (s : CaptureState α) (now : ℚ) (features : Option α) :
    CaptureState α :=
  match features with
  | some f =>
      if s.pending_sample then s
      else
        let start := s.two_hands_start_time.getD now
        let elapsed := now - start
        if 3 ≤ elapsed then ⟨some start, true, some f⟩
        else ⟨some start, s.pending_sample, s.captured_features⟩
  | none =>
      if s.pending_sample then s
      else ⟨none, s.pending_sample, s.captured_features⟩

/-- Run the auto-capture logic over a list of frames, each a clock value
paired with the frame's `extract_features` result, threading the state and
counting the frames on which `pending_sample` flips from `false` to `true`
(the captured transitions). -/
def runAuto {α : Type} (s : CaptureState α) (count : Nat) :
    List (ℚ × Option α) → CaptureState α × Nat
  | [] => (s, count)
  | (t, f) :: rest =>
      let s2 := autoStep s t f
      runAuto s2
        (if s.pending_sample = false ∧ s2.pending_sample = true then count + 1
         else count) rest

end CollectData

namespace DetectRealtime

/-- `np.linalg.norm(middle_mcp - wrist)` in `detect_realtime.normalize_landmarks`. -/
noncomputable def distOf (hand_landmarks : List Landmark) : ℝ :=
  let wrist := hand_landmarks.getD 0 ⟨0, 0⟩
  let middle_mcp := hand_landmarks.getD 9 ⟨0, 0⟩
  Real.sqrt ((middle_mcp.x - wrist.x) ^ 2 + (middle_mcp.y - wrist.y) ^ 2)

/-- The clamped scale factor of `detect_realtime.normalize_landmarks`. -/
noncomputable def scaleOf (hand_landmarks : List Landmark) : ℝ :=
  if distOf hand_landmarks < 1e-6 then 1e-6 else distOf hand_landmarks

/-- `detect_realtime.normalize_landmarks` (textual duplicate of the
collection-side function). -/
noncomputable def normalize_landmarks (hand_landmarks : List Landmark) : List ℝ :=
  let wrist := hand_landmarks.getD 0 ⟨0, 0⟩
  (hand_landmarks.map (fun lm =>
    [(lm.x - wrist.x) / scaleOf hand_landmarks,
     (lm.y - wrist.y) / scaleOf hand_landmarks])).flatten

/-- `detect_realtime.extract_features` (textual duplicate of the
collection-side function). -/
noncomputable def extract_features (hand_landmarks_list : List (List Landmark))
    (handedness_list : List String) : Option (List ℝ) :=
  if hand_landmarks_list.length < 2 then none
  else
    let hand_data := (hand_landmarks_list.zip handedness_list).map
      (fun h => (h.2, normalize_landmarks h.1))
    let sorted := sortByHandedness hand_data
    some (sorted.map (fun h => h.2)).flatten

/-- `SMOOTHING_WINDOW = 10`: capacity of the prediction buffer. -/
def SMOOTHING_WINDOW : Nat := 10

/-- `HEART_THRESHOLD = 0.80`: minimum smoothed probability to report the
gesture. -/
def HEART_THRESHOLD : ℚ := 0.80

/-- `prediction_buffer.append(probability)` where
`prediction_buffer = deque(maxlen=SMOOTHING_WINDOW)`: append on the right
and keep only the last `SMOOTHING_WINDOW` entries, discarding from the
left. -/
def bufferAppend (buf : List ℚ) (p : ℚ) : List ℚ :=
  (buf ++ [p]).drop (buf.length + 1 - SMOOTHING_WINDOW)

/-- The per-frame decision displayed by `detect_realtime.main`: the
`is_heart` boolean and the smoothed probability (`none` on frames where
fewer than two hands are detected and no probability is computed). -/
structure Decision where
  is_gesture : Bool
  confidence : Option ℚ
deriving DecidableEq

/-- One frame of the decision layer in `detect_realtime.main`: with features
present, run the (opaque) scaler+classifier `predict`, append the
probability to the buffer, average the buffer, and compare against
`HEART_THRESHOLD` (inclusive); with features absent, clear the buffer and
report no gesture. -/
def update {α : Type} (predict : α → ℚ) (buf : List ℚ) (features : Option α) :
    List ℚ × Decision :=
  match features with
  | some f =>
      let probability := predict f
      let buf2 := bufferAppend buf probability
      let avg := buf2.sum / (buf2.length : ℚ)
      (buf2, ⟨decide (HEART_THRESHOLD ≤ avg), some avg⟩)
  | none => ([], ⟨false, none⟩)

/-- Run the decision layer over a list of frames (each the frame's
`extract_features` result) from an empty buffer, returning the final buffer
and the last frame's decision. -/
def runLayer {α : Type} (predict : α → ℚ) (frames : List (Option α)) :
    List ℚ × Decision :=
  frames.foldl (fun acc f => update predict acc.1 f) ([], ⟨false, none⟩)

end DetectRealtime

/-- The input transformation quantified over by the scale/translation
invariance property: every landmark `p` is mapped to `s * p + t`. -/
noncomputable def scaleTranslate (s : ℝ) (t : Landmark) (hand : List Landmark) :
    List Landmark :=
  hand.map (fun p => ⟨s * p.x + t.x, s * p.y + t.y⟩)

/-- Three identical 21-landmark hands: a concrete input with more than two
detected hands. -/
noncomputable def threeHands : List (List Landmark) :=
  List.replicate 3 (List.replicate 21 ⟨0, 0⟩)

/-- A concrete 21-landmark hand used for two-hand inputs. -/
noncomputable def pairHand : List Landmark := List.replicate 21 ⟨0, 0⟩

/-- A 21-landmark hand whose wrist and middle MCP coincide (clamped scale)
but whose landmark 1 is elsewhere. -/
noncomputable def degHand : List Landmark := ⟨0, 0⟩ :: ⟨1, 0⟩ :: List.replicate 19 ⟨0, 0⟩

/-- A 21-landmark hand whose wrist-to-MCP distance is exactly 1/2
(a 3-4-5 right triangle scaled to 0.3 and 0.4). -/
noncomputable def wHand : List Landmark :=
  ⟨0, 0⟩ :: ⟨0, 0⟩ :: ⟨0, 0⟩ :: ⟨0, 0⟩ :: ⟨0, 0⟩ :: ⟨0, 0⟩ :: ⟨0, 0⟩ :: ⟨0, 0⟩ :: ⟨0, 0⟩ ::
  ⟨3 / 10, 2 / 5⟩ :: List.replicate 11 ⟨0, 0⟩

/-- A hand whose 21 landmarks are all the same point. -/
noncomputable def constHand : List Landmark := List.replicate 21 ⟨1 / 2, 1 / 2⟩

/-- A concrete 21-landmark hand with the wrist away from the origin. -/
noncomputable def originHand : List Landmark := List.replicate 21 ⟨1, 2⟩

/-- Flattening a map whose blocks all have two entries doubles the length. -/
lemma flatten_pairs_length {γ : Type} (f : γ → List ℝ) (hf : ∀ a, (f a).length = 2)
    (l : List γ) : ((l.map f).flatten).length = 2 * l.length := by
  induction l with
  | nil => simp
  | cons a t ih => simp [hf, ih]; ring

/-- A normalized hand has two values per landmark. -/
lemma normalize_length (hand : List Landmark) :
    (CollectData.normalize_landmarks hand).length = 2 * hand.length := by
  simp only [CollectData.normalize_landmarks]
  apply flatten_pairs_length
  intro a
  rfl

/-- Summing a map that is constantly `c` gives `c` times the length. -/
lemma sum_map_const_nat {γ : Type} (l : List γ) (f : γ → ℕ) (c : ℕ)
    (h : ∀ x ∈ l, f x = c) : (l.map f).sum = c * l.length := by
  induction l with
  | nil => simp
  | cons a t ih =>
      have ha := h a (by simp)
      have ht := ih (fun x hx => h x (by simp [hx]))
      simp [ha, ht]
      ring

/-- Inserting an element is a permutation of consing it. -/
lemma insertByKey_perm {β : Type} (a : String × β) (l : List (String × β)) :
    List.Perm (insertByKey a l) (a :: l) := by
  induction l with
  | nil => rfl
  | cons b t ih =>
      rw [insertByKey]
      split
      · rfl
      · exact (ih.cons b).trans (List.Perm.swap a b t)

/-- The insertion fold permutes the accumulator followed by the input. -/
lemma sortByHandedness_aux_perm {β : Type} (l : List (String × β)) :
    ∀ acc : List (String × β),
      List.Perm (l.foldl (fun acc a => insertByKey a acc) acc) (acc ++ l) := by
  induction l with
  | nil => intro acc; simp
  | cons a t ih =>
      intro acc
      rw [List.foldl_cons]
      refine (ih (insertByKey a acc)).trans ?_
      refine (List.Perm.append_right t (insertByKey_perm a acc)).trans ?_
      simpa using List.perm_middle.symm

/-- The handedness sort permutes its input. -/
lemma sortByHandedness_perm {β : Type} (l : List (String × β)) :
    List.Perm (sortByHandedness l) l := by
  simpa [sortByHandedness] using sortByHandedness_aux_perm l []

/-- Indexing a mapped list inside its bounds applies the function to the
indexed element, for any defaults. -/
lemma getD_map_of_lt (l : List Landmark) (f : Landmark → Landmark) (i : ℕ)
    (h : i < l.length) (d d' : Landmark) : (l.map f).getD i d = f (l.getD i d') := by
  rw [List.getD_eq_getElem?_getD, List.getD_eq_getElem?_getD, List.getElem?_map,
    List.getElem?_eq_getElem h]
  rfl

/-- The euclidean norm of a similarity-transformed difference is the scale
factor times the original norm (the translation cancels). -/
lemma sqrt_scale_factor (s mx my wx wy tx ty : ℝ) (hs : 0 ≤ s) :
    Real.sqrt ((s * mx + tx - (s * wx + tx)) ^ 2 + (s * my + ty - (s * wy + ty)) ^ 2) =
      s * Real.sqrt ((mx - wx) ^ 2 + (my - wy) ^ 2) := by
  rw [show (s * mx + tx - (s * wx + tx)) ^ 2 + (s * my + ty - (s * wy + ty)) ^ 2 =
      s ^ 2 * ((mx - wx) ^ 2 + (my - wy) ^ 2) by ring]
  rw [Real.sqrt_mul (sq_nonneg s), Real.sqrt_sq hs]

/-- The anchor distance scales linearly under `scaleTranslate`. -/
lemma distOf_scaleTranslate (hand : List Landmark) (s : ℝ) (t : Landmark)
    (hs : 0 ≤ s) (hlen : 10 ≤ hand.length) :
    CollectData.distOf (scaleTranslate s t hand) = s * CollectData.distOf hand := by
  simp only [CollectData.distOf]
  rw [scaleTranslate, getD_map_of_lt hand _ 0 (by omega) ⟨0, 0⟩ ⟨0, 0⟩,
    getD_map_of_lt hand _ 9 (by omega) ⟨0, 0⟩ ⟨0, 0⟩]
  exact sqrt_scale_factor s _ _ _ _ t.x t.y hs

/-- The wrist-to-MCP distance of `wHand` is exactly one half. -/
lemma wHand_dist : CollectData.distOf wHand = 1 / 2 := by
  simp only [CollectData.distOf, wHand, List.getD_cons_zero, List.getD_cons_succ]
  rw [show ((3 : ℝ) / 10 - 0) ^ 2 + ((2 : ℝ) / 5 - 0) ^ 2 = (1 / 2) ^ 2 by norm_num]
  exact Real.sqrt_sq (by norm_num)

/-- The degenerate hand has anchor distance zero. -/
lemma degHand_dist : CollectData.distOf degHand = 0 := by
  simp [CollectData.distOf, degHand, List.getD, List.replicate]

/-- The scaled degenerate hand still has anchor distance zero. -/
lemma degHand_dist_scaled : CollectData.distOf (scaleTranslate 2 ⟨0, 0⟩ degHand) = 0 := by
  simp [CollectData.distOf, degHand, scaleTranslate, List.getD, List.replicate]

/-- The empty-buffer auto-capture state has no pending sample. -/
lemma initState_pending {α : Type} :
    (CollectData.initState : CollectData.CaptureState α).pending_sample = false := rfl

/-- While a sample is pending, a frame changes nothing. -/
lemma autoStep_pending {α : Type} (s : CollectData.CaptureState α) (t : ℚ) (f : Option α)
    (h : s.pending_sample = true) : CollectData.autoStep s t f = s := by
  cases f <;> simp [CollectData.autoStep, h]

/-- While a sample is pending, a whole run changes nothing and counts no
captured transition. -/
lemma runAuto_pending {α : Type} (frames : List (ℚ × Option α)) :
    ∀ (s : CollectData.CaptureState α) (n : Nat), s.pending_sample = true →
      CollectData.runAuto s n frames = (s, n) := by
  induction frames with
  | nil => intro s n _; rfl
  | cons p t ih =>
      intro s n h
      obtain ⟨tp, fp⟩ := p
      simp only [CollectData.runAuto, autoStep_pending s tp fp h, h]
      simp only [Bool.true_eq_false, false_and, if_false]
      exact ih s n h

/-- An accumulating frame below the 3-second threshold keeps the state. -/
lemma autoStep_hold {α : Type} (t0 tp : ℚ) (fp : α) (h : ¬ 3 ≤ tp - t0) :
    CollectData.autoStep (⟨some t0, false, none⟩ : CollectData.CaptureState α) tp (some fp) =
      ⟨some t0, false, none⟩ := by
  simp [CollectData.autoStep, h]

/-- An accumulating frame at or past the 3-second threshold captures the
frame features. -/
lemma autoStep_capture {α : Type} (t0 tp : ℚ) (fp : α) (h : 3 ≤ tp - t0) :
    CollectData.autoStep (⟨some t0, false, none⟩ : CollectData.CaptureState α) tp (some fp) =
      ⟨some t0, true, some fp⟩ := by
  simp [CollectData.autoStep, h]

/-- The first present frame starts the hold timer at the frame clock. -/
lemma autoStep_first {α : Type} (t0 : ℚ) (f0 : α) :
    CollectData.autoStep CollectData.initState t0 (some f0) = ⟨some t0, false, none⟩ := by
  simp [CollectData.autoStep, CollectData.initState]

/-- An absent frame while accumulating resets to the start state. -/
lemma autoStep_absent_reset {α : Type} (t0 t : ℚ) :
    CollectData.autoStep (⟨some t0, false, none⟩ : CollectData.CaptureState α) t none =
      CollectData.initState := by
  simp [CollectData.autoStep, CollectData.initState]

/-- Runs decompose over list append. -/
lemma runAuto_append {α : Type} (l1 l2 : List (ℚ × Option α)) :
    ∀ (s : CollectData.CaptureState α) (n : Nat),
      CollectData.runAuto s n (l1 ++ l2) =
        CollectData.runAuto (CollectData.runAuto s n l1).1 (CollectData.runAuto s n l1).2 l2 := by
  induction l1 with
  | nil => intro s n; rfl
  | cons p t ih =>
      intro s n
      obtain ⟨tp, fp⟩ := p
      simp only [List.cons_append, CollectData.runAuto]
      exact ih _ _

/-- A present run entirely below the threshold stays accumulating with the
original start time and counts no captured transition. -/
lemma runAuto_below {α : Type} (rest : List (ℚ × α)) (t0 : ℚ) :
    ∀ n : Nat, (∀ p ∈ rest, p.1 - t0 < 3) →
      CollectData.runAuto (⟨some t0, false, none⟩ : CollectData.CaptureState α) n
          (rest.map (fun p => (p.1, some p.2))) =
        (⟨some t0, false, none⟩, n) := by
  induction rest with
  | nil => intro n _; rfl
  | cons p t ih =>
      intro n hall
      obtain ⟨tp, fp⟩ := p
      have hlt : ¬ 3 ≤ tp - t0 := by
        have := hall (tp, fp) (by simp)
        simpa using not_le.mpr this
      simp only [List.map_cons, CollectData.runAuto, autoStep_hold t0 tp fp hlt]
      simp only [Bool.false_eq_true, and_false, if_false]
      exact ih n (fun q hq => hall q (by simp [hq]))

/-- A present run containing a frame at or past the threshold captures
exactly once and ends pending. -/
lemma runAuto_cross {α : Type} (rest : List (ℚ × α)) (t0 : ℚ) :
    ∀ n : Nat, (∃ p ∈ rest, 3 ≤ p.1 - t0) →
      ((CollectData.runAuto (⟨some t0, false, none⟩ : CollectData.CaptureState α) n
          (rest.map (fun p => (p.1, some p.2)))).2 = n + 1 ∧
        (CollectData.runAuto (⟨some t0, false, none⟩ : CollectData.CaptureState α) n
          (rest.map (fun p => (p.1, some p.2)))).1.pending_sample = true) := by
  induction rest with
  | nil => intro n h; simp at h
  | cons p t ih =>
      intro n hex
      obtain ⟨tp, fp⟩ := p
      by_cases hc : 3 ≤ tp - t0
      · simp only [List.map_cons, CollectData.runAuto, autoStep_capture t0 tp fp hc]
        simp only [and_true, if_pos rfl]
        rw [runAuto_pending _ _ _ rfl]
        simp
      · simp only [List.map_cons, CollectData.runAuto, autoStep_hold t0 tp fp hc]
        simp only [Bool.false_eq_true, and_false, if_false]
        apply ih
        rcases hex with ⟨q, hq, hq3⟩
        rcases List.mem_cons.mp hq with rfl | hmem
        · exact absurd hq3 (by simpa using hc)
        · exact ⟨q, hmem, hq3⟩

/-- One append never grows the buffer past the window. -/
lemma update_length_le {α : Type} (predict : α → ℚ) (buf : List ℚ) (f : Option α) :
    (DetectRealtime.update predict buf f).1.length ≤ DetectRealtime.SMOOTHING_WINDOW := by
  cases f with
  | none => simp [DetectRealtime.update]
  | some x =>
      simp [DetectRealtime.update, DetectRealtime.bufferAppend, DetectRealtime.SMOOTHING_WINDOW]
      omega

/-- Folding the decision layer from any in-bounds accumulator stays in
bounds. -/
lemma runLayer_acc_length {α : Type} (predict : α → ℚ) (frames : List (Option α)) :
    ∀ acc : List ℚ × DetectRealtime.Decision,
      acc.1.length ≤ DetectRealtime.SMOOTHING_WINDOW →
      ((frames.foldl (fun acc f => DetectRealtime.update predict acc.1 f) acc).1.length ≤
        DetectRealtime.SMOOTHING_WINDOW) := by
  induction frames with
  | nil => intro acc h; simpa using h
  | cons f t ih =>
      intro acc h
      rw [List.foldl_cons]
      exact ih _ (update_length_le predict acc.1 f)

/-- C1 (counterexample): with three detected hands of 21 landmarks each,
`extract_features` does not return 84 values: it concatenates all three
normalized hands and returns 126 values, so the claim that only the first
two hands after sorting are used is false as stated. -/
theorem extract_features_three_hands_returns_126 :
    (CollectData.extract_features threeHands ["Left", "Left", "Left"]).map List.length =
      some 126 ∧ (126 : ℕ) ≠ 84 := by
  constructor
  · simp [threeHands, CollectData.extract_features, sortByHandedness, insertByKey, handKey,
      List.length_flatten, normalize_length, List.replicate]
  · decide

/-- C1 (amended): `extract_features` returns `none` for fewer than two
hands, and for `n ≥ 2` hands of 21 landmarks each it returns a vector of
`42 * n` values — 84 exactly when exactly two hands are detected; with more
than two hands all of them are concatenated, not only the first two. -/
theorem extract_features_hand_count (hand_landmarks_list : List (List Landmark))
    (handedness_list : List String)
    (hlen : handedness_list.length = hand_landmarks_list.length)
    (hall : ∀ h ∈ hand_landmarks_list, h.length = 21) :
    (hand_landmarks_list.length < 2 →
      CollectData.extract_features hand_landmarks_list handedness_list = none) ∧
    (2 ≤ hand_landmarks_list.length →
      ∃ v, CollectData.extract_features hand_landmarks_list handedness_list = some v ∧
        v.length = 42 * hand_landmarks_list.length) := by
  constructor
  · intro h
    simp [CollectData.extract_features, h]
  · intro h2
    rw [CollectData.extract_features, if_neg (by omega)]
    refine ⟨_, rfl, ?_⟩
    rw [List.length_flatten]
    have hperm : List.Perm
        (((sortByHandedness ((hand_landmarks_list.zip handedness_list).map
            (fun h => (h.2, CollectData.normalize_landmarks h.1)))).map (fun h => h.2)).map
          List.length)
        ((((hand_landmarks_list.zip handedness_list).map
            (fun h => (h.2, CollectData.normalize_landmarks h.1))).map
            (fun h => h.2)).map List.length) :=
      ((sortByHandedness_perm _).map _).map _
    rw [hperm.sum_eq]
    rw [List.map_map, List.map_map]
    rw [sum_map_const_nat _ _ 42 ?_]
    · rw [List.length_zip, hlen, Nat.min_self]
    · intro x hx
      have hfst : x.1 ∈ hand_landmarks_list := (List.of_mem_zip hx).1
      simp [normalize_length, hall x.1 hfst]

/-- C1 (witness): with exactly two 21-landmark hands the amended theorem
yields an 84-value vector. -/
theorem extract_features_hand_count_witness :
    (CollectData.extract_features [pairHand, pairHand] ["Right", "Left"]).map List.length =
      some 84 := by
  rcases (extract_features_hand_count [pairHand, pairHand] ["Right", "Left"] (by simp)
      (by simp [pairHand])).2 (by simp) with ⟨v, hv, hlen⟩
  rw [hv]
  simp [hlen]

/-- C2: the auto-capture state machine (a) produces no captured transition
when two-hand features are present only at clock values strictly within
3.0 seconds of the first frame and are then followed by an absent frame,
ending back in the start state; (b) produces exactly one captured
transition, ending pending, when some present frame lies at least 3.0
seconds after the first; and (c) while a sample is pending, frames —
present or absent — change neither the snapshot nor the timer. -/
theorem auto_capture_state_machine {α : Type} :
    (∀ (t0 tg : ℚ) (f0 : α) (rest : List (ℚ × α)),
        (∀ p ∈ rest, p.1 - t0 < 3) →
        CollectData.runAuto CollectData.initState 0
            (((t0, some f0) :: rest.map (fun p => (p.1, some p.2))) ++
              [(tg, (none : Option α))]) =
          (CollectData.initState, 0)) ∧
    (∀ (t0 : ℚ) (f0 : α) (rest : List (ℚ × α)),
        (∃ p ∈ rest, 3 ≤ p.1 - t0) →
        (CollectData.runAuto CollectData.initState 0
            ((t0, some f0) :: rest.map (fun p => (p.1, some p.2)))).2 = 1 ∧
          (CollectData.runAuto CollectData.initState 0
            ((t0, some f0) :: rest.map (fun p => (p.1, some p.2)))).1.pending_sample =
            true) ∧
    (∀ (s : CollectData.CaptureState α) (t : ℚ) (f : Option α),
        s.pending_sample = true → CollectData.autoStep s t f = s) := by
  refine ⟨?_, ?_, ?_⟩
  · intro t0 tg f0 rest hall
    rw [List.cons_append]
    simp only [CollectData.runAuto, autoStep_first t0 f0, initState_pending,
      Bool.false_eq_true, and_false, if_false]
    rw [runAuto_append, runAuto_below rest t0 0 hall]
    simp only [CollectData.runAuto, autoStep_absent_reset, initState_pending,
      Bool.false_eq_true, and_false, if_false]
  · intro t0 f0 rest hex
    simp only [CollectData.runAuto, autoStep_first t0 f0, initState_pending,
      Bool.false_eq_true, and_false, if_false]
    simpa using runAuto_cross rest t0 0 hex
  · intro s t f h
    exact autoStep_pending s t f h

/-- C2 (witness): a 1-second hold followed by a gap captures nothing and
resets; a frame 4 seconds after the start captures exactly once; a pending
state absorbs a new detection unchanged. -/
theorem auto_capture_state_machine_witness :
    CollectData.runAuto CollectData.initState 0
        [((0 : ℚ), some (5 : ℚ)), ((1 : ℚ), some (6 : ℚ)), ((2 : ℚ), none)] =
      (CollectData.initState, 0) ∧
    (CollectData.runAuto CollectData.initState 0
        [((0 : ℚ), some (5 : ℚ)), ((4 : ℚ), some (7 : ℚ))]).2 = 1 ∧
    CollectData.autoStep (⟨some 0, true, some (9 : ℚ)⟩ : CollectData.CaptureState ℚ) 1
        (some 2) = ⟨some 0, true, some 9⟩ :=
  ⟨by
      have := (@auto_capture_state_machine ℚ).1 0 2 5 [(1, 6)] (by norm_num)
      simpa using this,
    ((@auto_capture_state_machine ℚ).2.1 0 5 [(4, 7)] ⟨(4, 7), by simp, by norm_num⟩).1,
    (@auto_capture_state_machine ℚ).2.2 _ 1 (some 2) rfl⟩

/-- C3: for every 21-landmark hand, the first two values of the normalized
output — the wrist's normalized coordinates — are exactly 0 and 0. -/
theorem normalize_wrist_maps_to_origin (hand : List Landmark) (h : hand.length = 21) :
    (CollectData.normalize_landmarks hand).take 2 = [0, 0] := by
  match hand, h with
  | a :: rest, h =>
    simp [CollectData.normalize_landmarks]

/-- C3 (witness): a concrete hand of 21 copies of the point (1, 2)
normalizes with wrist at the origin. -/
theorem normalize_wrist_maps_to_origin_witness :
    (CollectData.normalize_landmarks originHand).take 2 = [0, 0] :=
  normalize_wrist_maps_to_origin originHand (by simp [originHand])

/-- C4 (counterexample): scale invariance fails as stated for all hands:
on a degenerate 21-landmark hand whose wrist and middle MCP coincide, the
clamp fixes the divisor at 1e-6 for both the original and the doubled hand,
so doubling the coordinates doubles the output instead of leaving it
unchanged. -/
theorem normalize_not_invariant_when_clamped :
    CollectData.normalize_landmarks (scaleTranslate 2 ⟨0, 0⟩ degHand) ≠
      CollectData.normalize_landmarks degHand := by
  intro heq
  have h2 := congrArg (fun l => l.getD 2 0) heq
  have hs1 : CollectData.scaleOf degHand = 1e-6 := by
    rw [CollectData.scaleOf, degHand_dist, if_pos (by norm_num)]
  have hs2 : CollectData.scaleOf (scaleTranslate 2 ⟨0, 0⟩ degHand) = 1e-6 := by
    rw [CollectData.scaleOf, degHand_dist_scaled, if_pos (by norm_num)]
  simp only [CollectData.normalize_landmarks, hs1, hs2] at h2
  simp only [degHand, scaleTranslate, List.map_cons, List.flatten_cons, List.getD,
    List.replicate] at h2
  norm_num at h2

/-- C4 (amended): for every 21-landmark hand, uniform scale `s > 0` and
translation `t`, normalization is exactly invariant provided the scale
clamp engages in neither evaluation, i.e. both the hand's wrist-to-MCP
distance and `s` times it are at least 1e-6; on clamped (degenerate) hands
the invariance fails. -/
theorem normalize_scale_translation_invariant (hand : List Landmark) (s : ℝ)
    (t : Landmark) (hlen : hand.length = 21) (hs : 0 < s)
    (h1 : 1e-6 ≤ CollectData.distOf hand)
    (h2 : 1e-6 ≤ s * CollectData.distOf hand) :
    CollectData.normalize_landmarks (scaleTranslate s t hand) =
      CollectData.normalize_landmarks hand := by
  have hd : CollectData.distOf (scaleTranslate s t hand) = s * CollectData.distOf hand :=
    distOf_scaleTranslate hand s t hs.le (by omega)
  have hdpos : (0 : ℝ) < CollectData.distOf hand := by
    have : (0 : ℝ) < 1e-6 := by norm_num
    linarith
  have hsc : CollectData.scaleOf (scaleTranslate s t hand) = s * CollectData.distOf hand := by
    rw [CollectData.scaleOf, hd, if_neg (not_lt.mpr h2)]
  have hsc0 : CollectData.scaleOf hand = CollectData.distOf hand := by
    rw [CollectData.scaleOf, if_neg (not_lt.mpr h1)]
  have hw : (scaleTranslate s t hand).getD 0 ⟨0, 0⟩ =
      ⟨s * (hand.getD 0 ⟨0, 0⟩).x + t.x, s * (hand.getD 0 ⟨0, 0⟩).y + t.y⟩ := by
    rw [scaleTranslate]
    exact getD_map_of_lt hand _ 0 (by omega) ⟨0, 0⟩ ⟨0, 0⟩
  simp only [CollectData.normalize_landmarks, hsc, hsc0, hw]
  rw [scaleTranslate, List.map_map]
  congr 1
  apply List.map_congr_left
  intro lm _
  simp only [Function.comp_apply]
  have e1 : s * lm.x + t.x - (s * (hand.getD 0 ⟨0, 0⟩).x + t.x) =
      s * (lm.x - (hand.getD 0 ⟨0, 0⟩).x) := by ring
  have e2 : s * lm.y + t.y - (s * (hand.getD 0 ⟨0, 0⟩).y + t.y) =
      s * (lm.y - (hand.getD 0 ⟨0, 0⟩).y) := by ring
  rw [e1, e2, mul_div_mul_left _ _ (ne_of_gt hs), mul_div_mul_left _ _ (ne_of_gt hs)]

/-- C4 (witness): on a hand with anchor distance 1/2, scaling by 2 and
translating by (1, 1) leaves the normalized output unchanged. -/
theorem normalize_scale_translation_invariant_witness :
    (0 : ℝ) < 2 ∧ (1e-6 : ℝ) ≤ CollectData.distOf wHand ∧
    (1e-6 : ℝ) ≤ 2 * CollectData.distOf wHand ∧
    CollectData.normalize_landmarks (scaleTranslate 2 ⟨1, 1⟩ wHand) =
      CollectData.normalize_landmarks wHand := by
  have h1 : (1e-6 : ℝ) ≤ CollectData.distOf wHand := by rw [wHand_dist]; norm_num
  have h2 : (1e-6 : ℝ) ≤ 2 * CollectData.distOf wHand := by rw [wHand_dist]; norm_num
  exact ⟨by norm_num, h1, h2,
    normalize_scale_translation_invariant wHand 2 ⟨1, 1⟩ (by simp [wHand]) (by norm_num)
      h1 h2⟩

/-- C5: swapping the detection order of a "Right"-labeled and a
"Left"-labeled hand leaves the extracted feature vector unchanged, and two
hands with equal labels (either label) keep their original detection order
— the canonical sort is stable. -/
theorem extract_features_order_canonicalization (L R a b : List Landmark) :
    CollectData.extract_features [R, L] ["Right", "Left"] =
      CollectData.extract_features [L, R] ["Left", "Right"] ∧
    CollectData.extract_features [a, b] ["Left", "Left"] =
      some (CollectData.normalize_landmarks a ++ CollectData.normalize_landmarks b) ∧
    CollectData.extract_features [a, b] ["Right", "Right"] =
      some (CollectData.normalize_landmarks a ++ CollectData.normalize_landmarks b) := by
  refine ⟨?_, ?_, ?_⟩ <;>
    simp [CollectData.extract_features, sortByHandedness, insertByKey, handKey]

/-- C6: normalization is total and never divides by zero: the divisor is
always at least 1e-6, it is exactly 1e-6 whenever the wrist-to-MCP distance
falls below 1e-6, and every 21-landmark hand — degenerate or not — yields a
42-value output. -/
theorem normalize_degenerate_guard (hand : List Landmark) (h : hand.length = 21) :
    1e-6 ≤ CollectData.scaleOf hand ∧
    (CollectData.distOf hand < 1e-6 → CollectData.scaleOf hand = 1e-6) ∧
    (CollectData.normalize_landmarks hand).length = 42 := by
  refine ⟨?_, ?_, ?_⟩
  · rw [CollectData.scaleOf]
    split
    · norm_num
    · next hd => exact le_of_not_lt hd
  · intro hlt
    rw [CollectData.scaleOf, if_pos hlt]
  · rw [normalize_length, h]

/-- C6 (witness): a hand whose 21 landmarks are all the same point has
anchor distance below 1e-6, gets the clamped divisor 1e-6, and still
produces a 42-value output. -/
theorem normalize_degenerate_guard_witness :
    CollectData.distOf constHand < 1e-6 ∧
    CollectData.scaleOf constHand = 1e-6 ∧
    (CollectData.normalize_landmarks constHand).length = 42 := by
  have h21 : constHand.length = 21 := by simp [constHand]
  have hd : CollectData.distOf constHand < 1e-6 := by
    simp [CollectData.distOf, constHand]
    norm_num
  exact ⟨hd, (normalize_degenerate_guard constHand h21).2.1 hd,
    (normalize_degenerate_guard constHand h21).2.2⟩

/-- C7: the prediction window never exceeds 10 entries in any reachable
state; an append below capacity adds the probability on the right, and an
append at capacity drops exactly the oldest (leftmost) entry — a sliding
window, not a reset buffer. -/
theorem prediction_window_capacity {α : Type} (predict : α → ℚ)
    (frames : List (Option α)) :
    (DetectRealtime.runLayer predict frames).1.length ≤ DetectRealtime.SMOOTHING_WINDOW ∧
    (∀ buf p, buf.length < DetectRealtime.SMOOTHING_WINDOW →
      DetectRealtime.bufferAppend buf p = buf ++ [p]) ∧
    (∀ buf p, buf.length = DetectRealtime.SMOOTHING_WINDOW →
      DetectRealtime.bufferAppend buf p = buf.tail ++ [p]) := by
  refine ⟨runLayer_acc_length predict frames _ (by simp), ?_, ?_⟩
  · intro buf p h
    simp only [DetectRealtime.SMOOTHING_WINDOW] at h
    have h0 : buf.length + 1 - 10 = 0 := by omega
    simp [DetectRealtime.bufferAppend, DetectRealtime.SMOOTHING_WINDOW, h0]
  · intro buf p h
    simp only [DetectRealtime.SMOOTHING_WINDOW] at h
    match buf, h with
    | a :: t, h =>
      have ht : t.length = 9 := by simpa using h
      simp [DetectRealtime.bufferAppend, DetectRealtime.SMOOTHING_WINDOW, ht]

/-- C7 (witness): one present frame keeps the window within capacity; a
full window of ten entries evicts exactly its oldest entry on the next
append; a three-entry window grows by one. -/
theorem prediction_window_capacity_witness :
    (DetectRealtime.runLayer (fun p : ℚ => p) [some 1]).1.length ≤
      DetectRealtime.SMOOTHING_WINDOW ∧
    DetectRealtime.bufferAppend [0, 0, 0, 0, 0, 0, 0, 0, 0, 0] 1 =
      ([0, 0, 0, 0, 0, 0, 0, 0, 0, 0] : List ℚ).tail ++ [1] ∧
    DetectRealtime.bufferAppend [0, 0, 0] 1 = ([0, 0, 0] : List ℚ) ++ [1] :=
  ⟨(prediction_window_capacity (fun p : ℚ => p) [some 1]).1,
    (prediction_window_capacity (fun p : ℚ => p) [some 1]).2.2 _ 1 rfl,
    (prediction_window_capacity (fun p : ℚ => p) [some 1]).2.1 _ 1 (by decide)⟩

/-- C8: a frame with absent features clears the prediction window to empty
in the same step and reports no gesture with undefined confidence, so no
probability recorded before a gap influences any later decision: a run is
equivalent to the run restarted just after its last gap. -/
theorem absent_features_clear_window {α : Type} (predict : α → ℚ) (buf : List ℚ)
    (pre post : List (Option α)) :
    DetectRealtime.update predict buf none = ([], ⟨false, none⟩) ∧
    DetectRealtime.runLayer predict (pre ++ none :: post) =
      DetectRealtime.runLayer predict post := by
  refine ⟨rfl, ?_⟩
  unfold DetectRealtime.runLayer
  rw [List.foldl_append, List.foldl_cons]
  rfl

/-- C9: with present features the decision is exactly whether the mean of
the updated window reaches the 0.80 threshold inclusively, and the reported
confidence is that mean; concretely, ten frames of probability 0.9 yield
a positive decision, ten frames of 0.5 a negative one, and ten frames
alternating 0.7 and 0.9 — mean exactly 0.80 — a positive one. -/
theorem decision_threshold_inclusive :
    (∀ (α : Type) (predict : α → ℚ) (buf : List ℚ) (f : α),
        ((DetectRealtime.update predict buf (some f)).2.is_gesture = true ↔
          DetectRealtime.HEART_THRESHOLD ≤
            (DetectRealtime.bufferAppend buf (predict f)).sum /
              ((DetectRealtime.bufferAppend buf (predict f)).length : ℚ)) ∧
        (DetectRealtime.update predict buf (some f)).2.confidence =
          some ((DetectRealtime.bufferAppend buf (predict f)).sum /
            ((DetectRealtime.bufferAppend buf (predict f)).length : ℚ))) ∧
    (DetectRealtime.runLayer (fun p : ℚ => p)
      (List.replicate 10 (some (9 / 10)))).2.is_gesture = true ∧
    (DetectRealtime.runLayer (fun p : ℚ => p)
      (List.replicate 10 (some (1 / 2)))).2.is_gesture = false ∧
    (DetectRealtime.runLayer (fun p : ℚ => p)
      [some (7 / 10), some (9 / 10), some (7 / 10), some (9 / 10), some (7 / 10),
       some (9 / 10), some (7 / 10), some (9 / 10), some (7 / 10),
       some (9 / 10)]).2.is_gesture = true := by
  refine ⟨?_, ?_, ?_, ?_⟩
  · intro α predict buf f
    constructor
    · simp [DetectRealtime.update]
    · simp [DetectRealtime.update]
  · norm_num [DetectRealtime.runLayer, DetectRealtime.update, DetectRealtime.bufferAppend,
      DetectRealtime.SMOOTHING_WINDOW, DetectRealtime.HEART_THRESHOLD, List.replicate]
  · norm_num [DetectRealtime.runLayer, DetectRealtime.update, DetectRealtime.bufferAppend,
      DetectRealtime.SMOOTHING_WINDOW, DetectRealtime.HEART_THRESHOLD, List.replicate]
  · norm_num [DetectRealtime.runLayer, DetectRealtime.update, DetectRealtime.bufferAppend,
      DetectRealtime.SMOOTHING_WINDOW, DetectRealtime.HEART_THRESHOLD]

/-- C10: the collection-side and the inference-side normalization and
feature extraction are extensionally equal on every input, so training-time
and inference-time feature definitions agree. -/
theorem collect_detect_pipelines_agree (hand : List Landmark)
    (hand_landmarks_list : List (List Landmark)) (handedness_list : List String) :
    CollectData.normalize_landmarks hand = DetectRealtime.normalize_landmarks hand ∧
    CollectData.extract_features hand_landmarks_list handedness_list =
      DetectRealtime.extract_features hand_landmarks_list handedness_list :=
  ⟨rfl, rfl⟩
